import Mathlib

/-!
Verification development for the Lick Searchable Archive frontend
(src/frontend/src/frontend.js and src/frontend/src/error_section.js).

The JavaScript functions analysed here are pure (or have effects we model as
explicit state passing):

* determinePages — the page-navigation control algorithm;
* buildObsDateSearchValues — expansion of entered observation dates into
  ISO interval endpoints;
* buildQueryParams — translation of the search form state into a query map;
* processResults — dispatch of a JSON query result to the error banner,
  count display or results table;
* downloadAll / submitDownload — the loop following result-page links and
  accumulating filenames for download.
-/

namespace LickArchive

/-! ### Pagination (determinePages, frontend.js lines 686-760)

The JS function returns an array of strings, each entry either the decimal
rendering of a page number (pageList.push(String(i))) or the literal
ellipsis marker "..." . Since String on distinct integers is injective and
never yields "...", we represent an entry by an inductive type: page n for
String(n) and dots for "...". -/

inductive PageItem where
  | page (n : Int)
  | dots
deriving DecidableEq, Repr

/-- The integer range traversed by the JS loop
for (let i = startRange; i <= endRange; i++), i.e. the list
lo, lo+1, ..., hi (empty when lo > hi). -/
def intRange (lo hi : Int) : List Int :=
  (List.range (hi + 1 - lo).toNat).map (fun k => lo + Int.ofNat k)

/-- Shallow embedding of determinePages (frontend.js 686-760).
Page numbers and control counts are JS numbers used only integrally
at the call site; we model them as Int. The function first settles
startRange, endRange, needStartEllipses, needEndEllipses (lines 693-744),
then assembles the list (lines 746-759). -/
def determinePages (currentPage totalPages maxControls surroundingControls : Int) :
    List PageItem :=
  -- defaults of lines 694-697, overridden inside the ellipsis regime
  let ranges : Int × Int × Bool × Bool :=
    if totalPages > maxControls + 2 then
      let changeOver := maxControls - (2 + surroundingControls)
      if currentPage ≤ changeOver then
        -- one ellipsis, at the end (lines 716-720)
        (2, maxControls - 2, false, true)
      else
        if currentPage + surroundingControls < totalPages then
          -- ellipses at both ends (lines 725-734)
          let endRange := currentPage + surroundingControls
          let startRange := (endRange - (maxControls - 4)) + 1
          (startRange, endRange, true, true)
        else
          -- ellipsis at the start only (lines 735-742)
          let endRange := totalPages
          let startRange := (endRange - (maxControls - 3)) + 1
          (startRange, endRange, true, false)
    else
      (2, totalPages, false, false)
  let startRange := ranges.1
  let endRange := ranges.2.1
  let needStartEllipses := ranges.2.2.1
  let needEndEllipses := ranges.2.2.2
  -- the page list always starts 1 (line 691)
  [PageItem.page 1]
    ++ (if needStartEllipses then [PageItem.dots] else [])
    ++ (intRange startRange endRange).map PageItem.page
    ++ (if needEndEllipses then [PageItem.dots, PageItem.page totalPages] else [])

example : determinePages 2 100 12 2 =
    [PageItem.page 1] ++ (intRange 2 10).map PageItem.page
      ++ [PageItem.dots, PageItem.page 100] := by decide

example : determinePages 9 100 12 2 =
    [PageItem.page 1, PageItem.dots] ++ (intRange 4 11).map PageItem.page
      ++ [PageItem.dots, PageItem.page 100] := by decide

example : determinePages 98 100 12 2 =
    [PageItem.page 1, PageItem.dots] ++ (intRange 92 100).map PageItem.page := by decide

/-- Closed-form branch description of determinePages, used by the pagination
proofs below. -/
theorem determinePages_eq (c t m s : Int) :
    determinePages c t m s =
      if t > m + 2 then
        if c ≤ m - (2 + s) then
          [PageItem.page 1] ++ (intRange 2 (m - 2)).map PageItem.page
            ++ [PageItem.dots, PageItem.page t]
        else if c + s < t then
          [PageItem.page 1, PageItem.dots]
            ++ (intRange (c + s - (m - 4) + 1) (c + s)).map PageItem.page
            ++ [PageItem.dots, PageItem.page t]
        else
          [PageItem.page 1, PageItem.dots]
            ++ (intRange (t - (m - 3) + 1) t).map PageItem.page
      else
        [PageItem.page 1] ++ (intRange 2 t).map PageItem.page := by
  unfold determinePages
  split_ifs <;> simp [*]

theorem intRange_length (lo hi : Int) :
    (intRange lo hi).length = (hi + 1 - lo).toNat := by
  simp [intRange]

theorem intRange_concat (lo hi : Int) (h : lo ≤ hi) :
    intRange lo hi = intRange lo (hi - 1) ++ [hi] := by
  unfold intRange
  obtain ⟨n, hn⟩ : ∃ n, (hi + 1 - lo).toNat = n + 1 := ⟨(hi - lo).toNat, by omega⟩
  have h2 : (hi - 1 + 1 - lo).toNat = n := by omega
  rw [hn, h2]
  simp only [List.range_succ, List.map_append, List.map_cons, List.map_nil]
  simp
  omega

theorem dots_not_mem_map_page (l : List Int) :
    PageItem.dots ∉ l.map PageItem.page := by
  simp [List.mem_map]

theorem getLast?_append_pair (l : List PageItem) (a b : PageItem) :
    (l ++ [a, b]).getLast? = some b := by
  rw [show l ++ [a, b] = (l ++ [a]) ++ [b] by simp]
  exact List.getLast?_concat _

theorem getLast?_append_intRange (pre : List PageItem) (lo hi : Int) (h : lo ≤ hi) :
    (pre ++ (intRange lo hi).map PageItem.page).getLast? = some (PageItem.page hi) := by
  rw [intRange_concat lo hi h]
  rw [show ((intRange lo (hi - 1) ++ [hi]).map PageItem.page) =
      (intRange lo (hi - 1)).map PageItem.page ++ [PageItem.page hi] by simp]
  rw [← List.append_assoc]
  exact List.getLast?_concat _

/-- C1 counterexample: with currentPage = 6, totalPages = 6 (so totalPages ≥ 1
and totalPages > 1), maxControls = 3, surroundingControls = 0, determinePages
returns [page 1, dots]: its last element is the ellipsis, not the string of
totalPages, so the claim fails as stated for arbitrary maxControls. -/
theorem c1_counterexample :
    (1 : Int) ≤ 6 ∧ (1 : Int) < 6 ∧
      determinePages 6 6 3 0 = [PageItem.page 1, PageItem.dots] ∧
      ¬ (determinePages 6 6 3 0).getLast? = some (PageItem.page 6) := by decide

/-- C1 (amended: additionally maxControls ≥ 4, which the sole call site
maxControls = 10 satisfies): for every currentPage, totalPages, maxControls,
surroundingControls with totalPages ≥ 1 and maxControls ≥ 4, the list returned
by determinePages has "1" (page 1) as first element, and if totalPages > 1 its
last element is the entry for totalPages. -/
theorem c1_pagination_endpoints (c t m s : Int) (ht : 1 ≤ t) (hm : 4 ≤ m) :
    (determinePages c t m s).head? = some (PageItem.page 1) ∧
    (1 < t → (determinePages c t m s).getLast? = some (PageItem.page t)) := by
  rw [determinePages_eq]
  split_ifs with h1 h2 h3
  · exact ⟨rfl, fun _ => getLast?_append_pair _ _ _⟩
  · exact ⟨rfl, fun _ => getLast?_append_pair _ _ _⟩
  · exact ⟨rfl, fun _ => getLast?_append_intRange _ _ _ (by omega)⟩
  · exact ⟨rfl, fun htt => getLast?_append_intRange _ _ _ (by omega)⟩

/-- C1 witness: the amended theorem applied at the call-site parameters
currentPage = 2, totalPages = 100, maxControls = 10, surroundingControls = 2. -/
theorem c1_witness :
    (determinePages 2 100 10 2).head? = some (PageItem.page 1) ∧
    (determinePages 2 100 10 2).getLast? = some (PageItem.page 100) :=
  ⟨(c1_pagination_endpoints 2 100 10 2 (by decide) (by decide)).1,
   (c1_pagination_endpoints 2 100 10 2 (by decide) (by decide)).2 (by decide)⟩

/-- C2 counterexample: with currentPage = 5, totalPages = 12, maxControls = 10,
surroundingControls = 2 (1 ≤ currentPage ≤ totalPages and
maxControls ≥ surroundingControls + 4), determinePages returns the full list
1..12 of length 12 > maxControls = 10: the claimed bound maxControls fails. -/
theorem c2_counterexample :
    ((1 : Int) ≤ 5 ∧ (5 : Int) ≤ 12 ∧ (2 : Int) + 4 ≤ 10) ∧
      ¬ (((determinePages 5 12 10 2).length : Int) ≤ 10) := by decide

/-- C2 (amended: the bound is maxControls + 2, not maxControls — the slack 2
is the room the code reserves for the previous/next buttons, which are not part
of the returned list; additionally surroundingControls ≥ 0): for every
currentPage, totalPages, maxControls, surroundingControls with
1 ≤ currentPage ≤ totalPages, surroundingControls ≥ 0 and
maxControls ≥ surroundingControls + 4, the list returned by determinePages,
counting page entries and ellipsis entries, has length at most
maxControls + 2. -/
theorem c2_pagination_length_bound (c t m s : Int)
    (hc1 : 1 ≤ c) (hct : c ≤ t) (hs : 0 ≤ s) (hms : s + 4 ≤ m) :
    ((determinePages c t m s).length : Int) ≤ m + 2 := by
  rw [determinePages_eq]
  split_ifs with h1 h2 h3 <;>
    simp [List.length_append, intRange_length] <;> omega

/-- C2 witness: the amended bound applied at currentPage = 2,
totalPages = 100, maxControls = 10, surroundingControls = 2. -/
theorem c2_witness :
    ((determinePages 2 100 10 2).length : Int) ≤ 10 + 2 :=
  c2_pagination_length_bound 2 100 10 2 (by decide) (by decide) (by decide) (by decide)

/-- C3: for every input with totalPages > maxControls + 2: below the
changeover page maxControls − surroundingControls − 2 the list has exactly one
ellipsis, placed immediately before the final entry which is the last page;
above the changeover the second element is an ellipsis, and a second ellipsis
immediately before the last page appears exactly when
currentPage + surroundingControls < totalPages. -/
theorem c3_pagination_ellipsis_regimes (c t m s : Int) (h : m + 2 < t) :
    (c ≤ m - s - 2 →
      ∃ pre, determinePages c t m s = pre ++ [PageItem.dots, PageItem.page t] ∧
        PageItem.dots ∉ pre) ∧
    (m - s - 2 < c →
      (∃ rest, determinePages c t m s = PageItem.page 1 :: PageItem.dots :: rest) ∧
      ((∃ mid, determinePages c t m s =
          PageItem.page 1 :: PageItem.dots :: (mid ++ [PageItem.dots, PageItem.page t]) ∧
          PageItem.dots ∉ mid) ↔ c + s < t)) := by
  rw [determinePages_eq, if_pos h]
  by_cases hA : c ≤ m - (2 + s)
  · rw [if_pos hA]
    constructor
    · intro _
      refine ⟨PageItem.page 1 :: (intRange 2 (m - 2)).map PageItem.page, by simp, ?_⟩
      simp [List.mem_map]
    · intro hB
      exact absurd hA (by omega)
  · rw [if_neg hA]
    constructor
    · intro hc
      exact absurd hc (by omega)
    · intro _
      by_cases h2 : c + s < t
      · rw [if_pos h2]
        refine ⟨⟨(intRange (c + s - (m - 4) + 1) (c + s)).map PageItem.page ++
          [PageItem.dots, PageItem.page t], by simp⟩, ?_⟩
        exact ⟨fun _ => h2,
          fun _ => ⟨(intRange (c + s - (m - 4) + 1) (c + s)).map PageItem.page,
            by simp, dots_not_mem_map_page _⟩⟩
      · rw [if_neg h2]
        refine ⟨⟨(intRange (t - (m - 3) + 1) t).map PageItem.page, by simp⟩, ?_⟩
        constructor
        · rintro ⟨mid, hEq, hmid⟩
          exfalso
          have hmap : (intRange (t - (m - 3) + 1) t).map PageItem.page =
              mid ++ [PageItem.dots, PageItem.page t] := by
            simpa using hEq
          have hd : PageItem.dots ∈ (intRange (t - (m - 3) + 1) t).map PageItem.page := by
            rw [hmap]; simp
          exact dots_not_mem_map_page _ hd
        · intro hlt
          exact absurd hlt h2

/-- C3 witness: the theorem applied at totalPages = 100, maxControls = 12,
surroundingControls = 2 (changeover page 8), once at currentPage = 2 (first
regime) and once at currentPage = 9 (second regime). -/
theorem c3_witness :
    (∃ pre, determinePages 2 100 12 2 = pre ++ [PageItem.dots, PageItem.page 100] ∧
        PageItem.dots ∉ pre) ∧
    (∃ rest, determinePages 9 100 12 2 = PageItem.page 1 :: PageItem.dots :: rest) ∧
    ((∃ mid, determinePages 9 100 12 2 =
        PageItem.page 1 :: PageItem.dots :: (mid ++ [PageItem.dots, PageItem.page 100]) ∧
        PageItem.dots ∉ mid) ↔ (9 : Int) + 2 < 100) :=
  ⟨(c3_pagination_ellipsis_regimes 2 100 12 2 (by decide)).1 (by decide),
   ((c3_pagination_ellipsis_regimes 9 100 12 2 (by decide)).2 (by decide)).1,
   ((c3_pagination_ellipsis_regimes 9 100 12 2 (by decide)).2 (by decide)).2⟩

/-! ### Observation-date expansion (buildObsDateSearchValues, frontend.js 264-294)

A date value entered in the form is a calendar date; the JS code turns it into
a timestamp with new Date(value + " 12:00:00-0800") and serializes results
with Date.prototype.toISOString. We model a calendar date by its civil day
number (days since the epoch day), so the parse yields the epoch millisecond
day * 86400000 + 20 * 3600000 (12:00:00 at UTC-8 is 20:00:00 UTC). Distinct
calendar dates have distinct day numbers and conversely. toISOString is
injective on epoch milliseconds, so the ISO output strings are modelled by
the epoch values they print. -/

/-- Epoch milliseconds of new Date(d + " 12:00:00-0800") where the calendar
date d has civil day number day: noon at fixed offset UTC-8 is 20:00:00 UTC,
i.e. 72000000 ms into the day. -/
def jsDateParseNoonPST (day : Int) : Int :=
  day * 86400000 + 72000000

/-- Models the comparison startDate == endDate at frontend.js line 276.
JS == on two Date objects compares object references; startDate and endDate
are two separately constructed objects, so the comparison is false regardless
of their time values. -/
def jsDateObjectEq (_startDate _endDate : Int) : Bool :=
  false

/-- Shallow embedding of buildObsDateSearchValues (frontend.js 264-294) over
day numbers; list entries of the result are epoch milliseconds standing for
the ISO strings produced by toISOString. For input lengths other than 1 and 2
the JS function returns its argument unchanged (day numbers pass through). -/
def buildObsDateSearchValues (dateSearchValues : List Int) : List Int :=
  match dateSearchValues with
  | [d0] =>
    -- Lick time is noon-to-noon PST; the end date adds (almost) a day in ms
    let startDate := jsDateParseNoonPST d0
    let endEpochTime := startDate + 86399999
    let endDate := endEpochTime
    if startDate > endDate then [endDate, startDate] else [startDate, endDate]
  | [d0, d1] =>
    let startDate := jsDateParseNoonPST d0
    let endDate0 := jsDateParseNoonPST d1
    -- line 276: if (startDate == endDate) re-expand to a full-day interval
    let endDate := if jsDateObjectEq startDate endDate0 then startDate + 86399999 else endDate0
    if startDate > endDate then [endDate, startDate] else [startDate, endDate]
  | other => other

/-- C4 counterexample: for the date with day number 0, the returned interval
is [72000000, 158399999]; its end is 86399999 ms after its start, not the
86400000 ms of exactly 24 hours, so the claim fails as stated. -/
theorem c4_counterexample :
    ¬ buildObsDateSearchValues [0] =
        [jsDateParseNoonPST 0, jsDateParseNoonPST 0 + 86400000] := by decide

/-- C4 (amended: the end of the interval is 86399999 ms — one millisecond
less than 24 hours — after the start): for every single date value d,
buildObsDateSearchValues [d] returns the two-element interval whose start is
d at 12:00:00 in the PST (UTC-8) timezone and whose end is 86399999 ms after
the start. -/
theorem c4_single_date_interval (d : Int) :
    buildObsDateSearchValues [d] =
      [jsDateParseNoonPST d, jsDateParseNoonPST d + 86399999] := by
  simp [buildObsDateSearchValues]

/-- C5: for every pair of distinct date values a, b, buildObsDateSearchValues
returns the same ascending [earlier, later] pair whether given [a, b] or
[b, a]; when the first date is later than the second the two values are
swapped in the output. -/
theorem c5_two_dates_sorted (a b : Int) (hab : a ≠ b) :
    buildObsDateSearchValues [a, b] =
        [min (jsDateParseNoonPST a) (jsDateParseNoonPST b),
         max (jsDateParseNoonPST a) (jsDateParseNoonPST b)] ∧
    buildObsDateSearchValues [b, a] = buildObsDateSearchValues [a, b] := by
  simp only [buildObsDateSearchValues, jsDateObjectEq, if_false, Bool.false_eq_true]
  unfold jsDateParseNoonPST
  constructor <;> split_ifs <;> simp <;> omega

/-- C5 witness: the theorem applied to the distinct day numbers 19000 and
18999 (the second date earlier than the first). -/
theorem c5_witness :
    buildObsDateSearchValues [19000, 18999] =
        [min (jsDateParseNoonPST 19000) (jsDateParseNoonPST 18999),
         max (jsDateParseNoonPST 19000) (jsDateParseNoonPST 18999)] ∧
    buildObsDateSearchValues [18999, 19000] = buildObsDateSearchValues [19000, 18999] :=
  c5_two_dates_sorted 19000 18999 (by decide)

/-- C10: for every pair of equal date values [d, d], buildObsDateSearchValues
returns the zero-length interval [t, t] with t the noon-PST timestamp of d:
the full-day re-expansion branch never runs because line 276 compares the two
Date objects by reference. -/
theorem c10_equal_dates_zero_interval (d : Int) :
    buildObsDateSearchValues [d, d] = [jsDateParseNoonPST d, jsDateParseNoonPST d] := by
  simp [buildObsDateSearchValues, jsDateObjectEq]

/-! ### Download-all loop (downloadAll, frontend.js 776-808; submitDownload 810-825)

downloadAll re-runs the query at page 1 and then loops: fetch the current
URL; if the response carries a non-null error, show it and return without
submitting; otherwise append the filename of every result on the page and
continue with the response's next link, until that link is null.

We model the backend's finite sequence of responses as the list of result
pages in fetch order: the k-th fetch returns the k-th page, and a page's next
link is non-null exactly when a further page follows it in the list. A page
is its (optional, non-null when present) error and the filename fields of its
results. -/

structure ResultPage where
  error : Option String
  filenames : List String
deriving DecidableEq

/-- Outcome of the downloadAll loop: either the loop completed and
submitDownload was called on the accumulated filenames, or an error message
was shown and nothing was submitted. -/
inductive DownloadOutcome where
  | submitted (files : List String)
  | errorShown (msg : String)
deriving DecidableEq

/-- The do/while loop of downloadAll (frontend.js 788-800) with the
accumulated filenamesToDownload made explicit. -/
def downloadAllLoop (acc : List String) : List ResultPage → DownloadOutcome
  | [] => DownloadOutcome.submitted acc
  | p :: rest =>
    match p.error with
    | some msg => DownloadOutcome.errorShown msg
    | none => downloadAllLoop (acc ++ p.filenames) rest

/-- downloadAll (frontend.js 776-808): run the loop from an empty filename
list over the backend's pages. -/
def downloadAll (pages : List ResultPage) : DownloadOutcome :=
  downloadAllLoop [] pages

/-- submitDownload (frontend.js 810-825): an empty filename list is not
submitted; a non-empty one is submitted (as the JSON-serialized list). -/
def submitDownload (filenamesToDownload : List String) : Option (List String) :=
  if filenamesToDownload.length = 0 then none else some filenamesToDownload

/-- What downloadAll hands to the backend: the submission of the accumulated
list when the loop completes, nothing when an error was shown. -/
def downloadAllSubmission (pages : List ResultPage) : Option (List String) :=
  match downloadAll pages with
  | DownloadOutcome.submitted files => submitDownload files
  | DownloadOutcome.errorShown _ => none

theorem downloadAllLoop_clean (pages : List ResultPage) :
    ∀ acc, (∀ p ∈ pages, p.error = none) →
      downloadAllLoop acc pages =
        DownloadOutcome.submitted (acc ++ (pages.map ResultPage.filenames).flatten) := by
  induction pages with
  | nil => intro acc _; simp [downloadAllLoop]
  | cons p rest ih =>
    intro acc hclean
    have hp : p.error = none := hclean p (List.mem_cons_self p rest)
    rw [downloadAllLoop, hp]
    rw [ih (acc ++ p.filenames) (fun q hq => hclean q (List.mem_cons_of_mem p hq))]
    simp

theorem downloadAllLoop_error (pre : List ResultPage) :
    ∀ acc rest p m, (∀ q ∈ pre, q.error = none) → p.error = some m →
      downloadAllLoop acc (pre ++ p :: rest) = DownloadOutcome.errorShown m := by
  induction pre with
  | nil => intro acc rest p m _ hp; rw [List.nil_append, downloadAllLoop, hp]
  | cons q pre ih =>
    intro acc rest p m hclean hp
    have hq : q.error = none := hclean q (List.mem_cons_self q pre)
    rw [List.cons_append, downloadAllLoop, hq]
    exact ih _ rest p m (fun r hr => hclean r (List.mem_cons_of_mem q hr)) hp

/-- C6: for every finite sequence of result pages served by the backend,
when no page carries an error the download list accumulated by downloadAll is
the concatenation, in page order, of the filename field of every result on
every page; and when the first page carrying a non-null error is reached,
downloadAll shows that error and submits nothing. -/
theorem c6_downloadAll (pages pre rest : List ResultPage) (p : ResultPage) (m : String) :
    ((∀ q ∈ pages, q.error = none) →
      downloadAll pages = DownloadOutcome.submitted ((pages.map ResultPage.filenames).flatten)) ∧
    (pages = pre ++ p :: rest → (∀ q ∈ pre, q.error = none) → p.error = some m →
      downloadAll pages = DownloadOutcome.errorShown m ∧
        downloadAllSubmission pages = none) := by
  constructor
  · intro hclean
    rw [downloadAll, downloadAllLoop_clean pages [] hclean, List.nil_append]
  · intro hsplit hclean hp
    have herr : downloadAll pages = DownloadOutcome.errorShown m := by
      rw [downloadAll, hsplit]
      exact downloadAllLoop_error pre [] rest p m hclean hp
    exact ⟨herr, by rw [downloadAllSubmission, herr]⟩

/-- C6 witness: a three-page error-free backend run accumulates the six
filenames in page order, and a run whose second page carries the error
message "boom" shows it and submits nothing. -/
theorem c6_witness :
    downloadAll
        [⟨none, ["a1", "a2"]⟩, ⟨none, ["b1"]⟩, ⟨none, ["c1", "c2", "c3"]⟩] =
      DownloadOutcome.submitted ["a1", "a2", "b1", "c1", "c2", "c3"] ∧
    downloadAll [⟨none, ["a1", "a2"]⟩, ⟨some "boom", ["b1"]⟩] =
        DownloadOutcome.errorShown "boom" ∧
      downloadAllSubmission [⟨none, ["a1", "a2"]⟩, ⟨some "boom", ["b1"]⟩] = none := by
  refine ⟨?_, ?_⟩
  · have h := (c6_downloadAll
      [⟨none, ["a1", "a2"]⟩, ⟨none, ["b1"]⟩, ⟨none, ["c1", "c2", "c3"]⟩] [] [] ⟨none, []⟩ "").1
      (by decide)
    simpa using h
  · exact (c6_downloadAll [⟨none, ["a1", "a2"]⟩, ⟨some "boom", ["b1"]⟩]
      [⟨none, ["a1", "a2"]⟩] [] ⟨some "boom", ["b1"]⟩ "boom").2 rfl (by decide) rfl

/-! ### Result processing (processResults, frontend.js 340-359;
ErrorSection, error_section.js)

The DOM effects are modelled by an explicit display state: the list of text
nodes in the error section, the count-only display (some c when
showResultsCountOnly c last ran, hiding the results table), and whether the
results table is shown. A query result object is its optional error message
(the value under its "error" key when present) and its count; the rendering
of the results table itself is not inspected by any claim. -/

structure DisplayState where
  errorBanner : List String
  countOnly : Option Int
  tableShown : Bool
deriving DecidableEq

structure JsonResults where
  error : Option String
  count : Int
deriving DecidableEq

/-- ErrorSection.showErrorMessage (error_section.js 7-9): appends a text node
holding exactly the message to the error section. -/
def showErrorMessage (st : DisplayState) (errorMessage : String) : DisplayState :=
  { st with errorBanner := st.errorBanner ++ [errorMessage] }

/-- ErrorSection.clearErrorMessages (error_section.js 11-16): removes every
child node of the error section. -/
def clearErrorMessages (st : DisplayState) : DisplayState :=
  { st with errorBanner := [] }

/-- showResultsCountOnly (frontend.js 361-381): hides the results table and
page controls and shows only the number of results. -/
def showResultsCountOnly (st : DisplayState) (count : Int) : DisplayState :=
  { st with countOnly := some count, tableShown := false }

/-- showResults (frontend.js 383-417): builds and shows the results table
(with its own counts and page controls). -/
def showResults (st : DisplayState) : DisplayState :=
  { st with countOnly := none, tableShown := true }

/-- processResults (frontend.js 340-359). hasCountParam models
queryParams.has("count"). -/
def processResults (hasCountParam : Bool) (jsonResults : JsonResults)
    (st : DisplayState) : DisplayState :=
  match jsonResults.error with
  | some msg => showErrorMessage (showResultsCountOnly st 0) msg
  | none =>
    let st := clearErrorMessages st
    if jsonResults.count = 0 ∨ hasCountParam then
      showResultsCountOnly st jsonResults.count
    else
      showResults st

/-- C7: for every query result object carrying an "error" key with message m,
processResults appends exactly the string m, unmodified, to the error banner,
shows a result count of 0 and renders no results table; for every result
object without an "error" key the error banner is cleared. -/
theorem c7_processResults_error (hasCountParam : Bool) (j : JsonResults)
    (st : DisplayState) (m : String) :
    (j.error = some m →
      processResults hasCountParam j st =
        { errorBanner := st.errorBanner ++ [m], countOnly := some 0, tableShown := false }) ∧
    (j.error = none → (processResults hasCountParam j st).errorBanner = []) := by
  constructor
  · intro herr
    rw [processResults, herr]
    rfl
  · intro herr
    rw [processResults, herr]
    simp only []
    split_ifs <;> rfl

/-- C7 witness: at a state with one stale banner message, an error payload
"db down" yields banner [old, db down], count 0 and no table; an error-free
payload clears the banner. -/
theorem c7_witness :
    processResults false { error := some "db down", count := 3 }
        { errorBanner := ["old"], countOnly := none, tableShown := true } =
      { errorBanner := ["old", "db down"], countOnly := some 0, tableShown := false } ∧
    (processResults false { error := none, count := 3 }
        { errorBanner := ["old"], countOnly := none, tableShown := true }).errorBanner = [] :=
  ⟨(c7_processResults_error false { error := some "db down", count := 3 }
      { errorBanner := ["old"], countOnly := none, tableShown := true } "db down").1 rfl,
   (c7_processResults_error false { error := none, count := 3 }
      { errorBanner := ["old"], countOnly := none, tableShown := true } "db down").2 rfl⟩

/-! ### Query building (buildQueryParams, frontend.js 152-261)

The query parameters are a JS Map from parameter name to either an
{operator, values} object (indexed search terms), an array of strings, or a
scalar string. The form and the configuration (config.json is not among the
given sources; only the shape of its use is needed) are modelled by explicit
state records; DOM elements that may be absent are Options. -/

inductive ParamValue where
  | indexed (op : String) (values : List String)
  | strings (vs : List String)
  | scalar (s : String)
deriving DecidableEq

abbrev ParamMap := List (String × ParamValue)

/-- JS Map.prototype.get over the binding list. -/
def mapGet (m : ParamMap) (k : String) : Option ParamValue :=
  match m with
  | [] => none
  | kv :: rest => if kv.1 = k then some kv.2 else mapGet rest k

/-- JS Map.prototype.has over the binding list. -/
def hasKey (m : ParamMap) (k : String) : Bool :=
  match m with
  | [] => false
  | kv :: rest => if kv.1 = k then true else hasKey rest k

/-- JS Map.prototype.set: overwrite the value under an existing key in place,
otherwise append the new binding (JS Maps iterate in insertion order). -/
def mapSet (m : ParamMap) (k : String) (v : ParamValue) : ParamMap :=
  if hasKey m k then
    m.map (fun kv => if kv.1 = k then (k, v) else kv)
  else
    m ++ [(k, v)]

theorem mapGet_replace_self (m : ParamMap) (k : String) (v : ParamValue)
    (hc : hasKey m k = true) :
    mapGet (m.map (fun kv => if kv.1 = k then (k, v) else kv)) k = some v := by
  induction m with
  | nil => simp [hasKey] at hc
  | cons kv rest ih =>
    by_cases hk : kv.1 = k
    · simp [mapGet, hk]
    · simp only [hasKey, if_neg hk] at hc
      simp [mapGet, hk, ih hc]

theorem mapGet_replace_ne (m : ParamMap) (k k' : String) (v : ParamValue)
    (h : k' ≠ k) :
    mapGet (m.map (fun kv => if kv.1 = k then (k, v) else kv)) k' = mapGet m k' := by
  induction m with
  | nil => rfl
  | cons kv rest ih =>
    by_cases hk : kv.1 = k
    · simp [mapGet, hk, show ¬ k = k' from fun e => h e.symm, ih]
    · simp [mapGet, hk, ih]

theorem mapGet_append_single_self (m : ParamMap) (k : String) (v : ParamValue)
    (hc : hasKey m k = false) :
    mapGet (m ++ [(k, v)]) k = some v := by
  induction m with
  | nil => simp [mapGet]
  | cons kv rest ih =>
    by_cases hk : kv.1 = k
    · simp [hasKey, hk] at hc
    · simp only [hasKey, if_neg hk] at hc
      simp [mapGet, hk, ih hc]

theorem mapGet_append_single_ne (m : ParamMap) (k k' : String) (v : ParamValue)
    (h : k' ≠ k) :
    mapGet (m ++ [(k, v)]) k' = mapGet m k' := by
  induction m with
  | nil => simp [mapGet, show ¬ k = k' from fun e => h e.symm]
  | cons kv rest ih =>
    by_cases hk' : kv.1 = k' <;> simp [mapGet, hk', ih]

theorem mapGet_mapSet_self (m : ParamMap) (k : String) (v : ParamValue) :
    mapGet (mapSet m k v) k = some v := by
  unfold mapSet
  split_ifs with h
  · exact mapGet_replace_self m k v h
  · exact mapGet_append_single_self m k v (by simpa using h)

theorem mapGet_mapSet_ne (m : ParamMap) (k k' : String) (v : ParamValue)
    (h : k' ≠ k) :
    mapGet (mapSet m k v) k' = mapGet m k' := by
  unfold mapSet
  split_ifs with hc
  · exact mapGet_replace_ne m k k' v h
  · exact mapGet_append_single_ne m k k' v h

/-- The parts of config.json that buildQueryParams reads: the indexed search
field names, the maximum number of value controls per field, whether an
instrument key is a category checkbox, and the default page size. -/
structure Config where
  searchFields : List String
  searchArgs : String → Nat
  instrumentCategory : String → Bool
  defaultPageSize : String

/-- The form state read by buildQueryParams. Element lookups that can return
null are Options; the instrument checkboxes and the result checkboxes appear
as (checked, value) pairs in DOM order. -/
structure FormState where
  queryBy : String → Bool
  searchOperator : String → Option String
  searchCase : String → Option Bool
  searchValue : String → Nat → Option String
  instruments : List (Bool × String)
  countChecked : Bool
  pageSize : String
  coordFormat : String
  sortFields : String
  sortDir : String
  resultChecks : List (Bool × String)

/-- The search operator for a checked indexed field (frontend.js 159-170):
the operator control's value, defaulting to "in" when the control is absent
(location searches), with "i" appended when a case checkbox exists and is not
checked. -/
def fieldOperator (fs : FormState) (field : String) : String :=
  let op := match fs.searchOperator field with
    | some v => v
    | none => "in"
  match fs.searchCase field with
  | some caseChecked => if caseChecked then op else op ++ "i"
  | none => op

/-- The nonempty values entered for an indexed field (frontend.js 173-179):
the values of the present controls search_value_(field)_1 up to
search_value_(field)_(searchArgs field), skipping empty ones, in order. -/
def fieldSearchValues (cfg : Config) (fs : FormState) (field : String) : List String :=
  (List.range (cfg.searchArgs field)).filterMap (fun i =>
    match fs.searchValue field (i + 1) with
    | some v => if v = "" then none else some v
    | none => none)

/-- The {operator, values} entry recorded for a checked indexed field
(frontend.js 158-191). For obs_date the values run through
buildObsDateSearchValues — abstracted here as obsDate, since the date
expansion works on entered strings and is analysed separately above over a
numeric date model — and the operator is overridden with "in" (interval) or
"eq". -/
def indexedEntry (cfg : Config) (fs : FormState) (obsDate : List String → List String)
    (field : String) : ParamValue :=
  if field = "obs_date" then
    let searchValues := obsDate (fieldSearchValues cfg fs field)
    ParamValue.indexed (if searchValues.length = 2 then "in" else "eq") searchValues
  else
    ParamValue.indexed (fieldOperator fs field) (fieldSearchValues cfg fs field)

/-- The instrument filter list (frontend.js 197-206): seeded with the string
"instrument", then the value of every checked non-category instrument
checkbox, in DOM order. -/
def instrumentValues (cfg : Config) (fs : FormState) : List String :=
  "instrument" :: fs.instruments.filterMap (fun instr =>
    if instr.1 then
      if cfg.instrumentCategory instr.2 = false then some instr.2 else none
    else none)

/-- The selected result fields (frontend.js 238-255): the value of every
checked input whose id ends in _result, with "download_link" added after any
input whose value is "filename"; a default list when nothing was collected. -/
def selectedResults (fs : FormState) : List String :=
  let results := fs.resultChecks.foldl (fun acc rc =>
    let acc := if rc.1 then acc ++ [rc.2] else acc
    if rc.2 = "filename" then acc ++ ["download_link"] else acc) []
  if results.length = 0 then ["filename", "download_link", "obs_date"] else results

/-- Shallow embedding of buildQueryParams (frontend.js 152-261). -/
def buildQueryParams (cfg : Config) (fs : FormState)
    (obsDate : List String → List String) (page : String) : ParamMap :=
  -- indexed search terms (lines 156-193)
  let queryParams := cfg.searchFields.foldl (fun m field =>
    if fs.queryBy field then mapSet m field (indexedEntry cfg fs obsDate field) else m)
    ([] : ParamMap)
  -- instrument filters (lines 197-210)
  let queryParams :=
    if (instrumentValues cfg fs).length > 0 then
      mapSet queryParams "filters" (ParamValue.strings (instrumentValues cfg fs))
    else queryParams
  -- count-only queries vs result formatting options (lines 213-257)
  let queryParams :=
    if fs.countChecked then
      mapSet queryParams "count" (ParamValue.scalar "")
    else
      let page_size := if fs.pageSize = "" then cfg.defaultPageSize else fs.pageSize
      let m := mapSet queryParams "page_size" (ParamValue.scalar page_size)
      let m := mapSet m "coord_format" (ParamValue.scalar fs.coordFormat)
      let sortValue := if fs.sortDir = "-" then "-" ++ fs.sortFields else fs.sortFields
      let m := mapSet m "sort" (ParamValue.scalar sortValue)
      mapSet m "results" (ParamValue.strings (selectedResults fs))
  -- requested page (line 259)
  mapSet queryParams "page" (ParamValue.scalar page)

theorem mapGet_fold_fields (cfg : Config) (fs : FormState)
    (obsDate : List String → List String) (f : String) (fields : List String) :
    ∀ m0 : ParamMap,
      mapGet (fields.foldl (fun m field =>
        if fs.queryBy field then mapSet m field (indexedEntry cfg fs obsDate field) else m)
        m0) f =
      if f ∈ fields ∧ fs.queryBy f then some (indexedEntry cfg fs obsDate f)
      else mapGet m0 f := by
  induction fields with
  | nil => intro m0; simp
  | cons g rest ih =>
    intro m0
    rw [List.foldl_cons, ih]
    by_cases hmem : f ∈ rest ∧ fs.queryBy f = true
    · have hcons : f ∈ g :: rest ∧ fs.queryBy f = true :=
        ⟨List.mem_cons_of_mem g hmem.1, hmem.2⟩
      rw [if_pos hmem, if_pos hcons]
    · rw [if_neg hmem]
      by_cases hg : g = f
      · subst hg
        by_cases hq : fs.queryBy g = true
        · have hcons : g ∈ g :: rest ∧ fs.queryBy g = true := ⟨by simp, hq⟩
          rw [if_pos hq, if_pos hcons, mapGet_mapSet_self]
        · have hcons : ¬ (g ∈ g :: rest ∧ fs.queryBy g = true) := fun hc => hq hc.2
          rw [if_neg hq, if_neg hcons]
      · have hcons : ¬ (f ∈ g :: rest ∧ fs.queryBy f = true) := by
          rintro ⟨hmem2, hqb⟩
          rcases List.mem_cons.mp hmem2 with he | hr
          · exact hg he.symm
          · exact hmem ⟨hr, hqb⟩
        rw [if_neg hcons]
        by_cases hq : fs.queryBy g = true
        · rw [if_pos hq, mapGet_mapSet_ne _ _ _ _ (fun he => hg he.symm)]
        · rw [if_neg hq]

theorem mapGet_buildQueryParams_field (cfg : Config) (fs : FormState)
    (obsDate : List String → List String) (page f : String)
    (h1 : f ≠ "filters") (h2 : f ≠ "count") (h3 : f ≠ "page_size")
    (h4 : f ≠ "coord_format") (h5 : f ≠ "sort") (h6 : f ≠ "results")
    (h7 : f ≠ "page") :
    mapGet (buildQueryParams cfg fs obsDate page) f =
      if f ∈ cfg.searchFields ∧ fs.queryBy f = true
      then some (indexedEntry cfg fs obsDate f) else none := by
  simp only [buildQueryParams]
  rw [mapGet_mapSet_ne _ _ _ _ h7]
  by_cases hcount : fs.countChecked = true
  · rw [if_pos hcount, mapGet_mapSet_ne _ _ _ _ h2,
      if_pos (by simp [instrumentValues]), mapGet_mapSet_ne _ _ _ _ h1,
      mapGet_fold_fields]
    rfl
  · rw [if_neg hcount, mapGet_mapSet_ne _ _ _ _ h6, mapGet_mapSet_ne _ _ _ _ h5,
      mapGet_mapSet_ne _ _ _ _ h4, mapGet_mapSet_ne _ _ _ _ h3,
      if_pos (by simp [instrumentValues]), mapGet_mapSet_ne _ _ _ _ h1,
      mapGet_fold_fields]
    rfl

/-- C8: for every form state, the query mapping built by buildQueryParams
contains an indexed search field f — one not named like a reserved parameter
key — with an {operator, values} entry if and only if the checkbox
query_by_(f) is checked, and an unchecked indexed field contributes no entry
at all. -/
theorem c8_checked_fields_exactly (cfg : Config) (fs : FormState)
    (obsDate : List String → List String) (page f : String)
    (hf : f ∈ cfg.searchFields)
    (hres : f ∉ (["filters", "count", "page_size", "coord_format",
      "sort", "results", "page"] : List String)) :
    ((∃ op values, mapGet (buildQueryParams cfg fs obsDate page) f =
        some (ParamValue.indexed op values)) ↔ fs.queryBy f = true) ∧
    (fs.queryBy f = false → mapGet (buildQueryParams cfg fs obsDate page) f = none) := by
  simp only [List.mem_cons, List.not_mem_nil, or_false, not_or] at hres
  obtain ⟨h1, h2, h3, h4, h5, h6, h7⟩ := hres
  have hkey := mapGet_buildQueryParams_field cfg fs obsDate page f h1 h2 h3 h4 h5 h6 h7
  constructor
  · constructor
    · rintro ⟨op, values, hsome⟩
      by_contra hq
      rw [hkey, if_neg (fun hc => hq hc.2)] at hsome
      exact Option.noConfusion hsome
    · intro hq
      rw [hkey, if_pos ⟨hf, hq⟩]
      unfold indexedEntry
      split_ifs <;> exact ⟨_, _, rfl⟩
  · intro hq
    rw [hkey, if_neg (fun hc => by simp [hc.2] at hq)]

/-- Concrete configuration for the C8 witness: two indexed fields, two value
controls each. -/
def cfgW : Config :=
  { searchFields := ["object", "filename"]
    searchArgs := fun _ => 2
    instrumentCategory := fun _ => false
    defaultPageSize := "100" }

/-- Concrete form state for the C8 witness: only query_by_object checked. -/
def fsW : FormState :=
  { queryBy := fun f => f == "object"
    searchOperator := fun _ => some "eq"
    searchCase := fun _ => none
    searchValue := fun _ i => if i = 1 then some "M31" else none
    instruments := [(true, "kast_blue")]
    countChecked := false
    pageSize := ""
    coordFormat := "decimal"
    sortFields := "obs_date"
    sortDir := "+"
    resultChecks := [] }

/-- C8 witness: with only query_by_object checked, the checked field "object"
has an {operator, values} entry exactly as its checkbox state says, and the
unchecked field "filename" has no entry. -/
theorem c8_witness :
    ((∃ op values, mapGet (buildQueryParams cfgW fsW id "1") "object" =
        some (ParamValue.indexed op values)) ↔ fsW.queryBy "object" = true) ∧
    mapGet (buildQueryParams cfgW fsW id "1") "filename" = none :=
  ⟨(c8_checked_fields_exactly cfgW fsW id "1" "object"
      (by simp [cfgW]) (by simp)).1,
   (c8_checked_fields_exactly cfgW fsW id "1" "filename"
      (by simp [cfgW]) (by simp)).2 rfl⟩

/-- C9: for every form state — in particular one where no instrument checkbox
is checked — the query mapping built by buildQueryParams has a "filters"
entry whose value list starts with "instrument" (the emptiness guard is
always satisfied because the list is seeded with "instrument"), followed by
exactly the values of the checked non-category instrument checkboxes. -/
theorem c9_filters_always_present (cfg : Config) (fs : FormState)
    (obsDate : List String → List String) (page : String) :
    mapGet (buildQueryParams cfg fs obsDate page) "filters" =
      some (ParamValue.strings ("instrument" :: fs.instruments.filterMap (fun instr =>
        if instr.1 then
          if cfg.instrumentCategory instr.2 = false then some instr.2 else none
        else none))) := by
  simp only [buildQueryParams]
  rw [mapGet_mapSet_ne _ _ _ _ (by decide)]
  by_cases hcount : fs.countChecked = true
  · rw [if_pos hcount, mapGet_mapSet_ne _ _ _ _ (by decide),
      if_pos (by simp [instrumentValues]), mapGet_mapSet_self]
    rfl
  · rw [if_neg hcount, mapGet_mapSet_ne _ _ _ _ (by decide),
      mapGet_mapSet_ne _ _ _ _ (by decide), mapGet_mapSet_ne _ _ _ _ (by decide),
      mapGet_mapSet_ne _ _ _ _ (by decide),
      if_pos (by simp [instrumentValues]), mapGet_mapSet_self]
    rfl

end LickArchive
